import Mathlib

/-!
Verification of the RAG-Upload-Service document-to-chunk pipeline.

Shallow embedding of the core pipeline of the repository
(`src/services/document_processor.py`, `src/services/ocr_service.py`,
`src/services/embedding_service.py`) and proofs of the specified
properties.

Python strings are modelled as `List Char`; byte-level and external
concerns (PyMuPDF page rendering, Tesseract recognition, PIL image
decoding, the langchain `RecursiveCharacterTextSplitter`) are modelled
as inputs/environments, while every piece of logic written in this
repository is translated statement by statement.
-/

namespace RagUpload

/-- Python's whitespace class for `str.strip()` / `str.split()`
(space, tab, newline, carriage return, vertical tab, form feed). -/
def pyIsSpace (c : Char) : Bool :=
  c == ' ' || c == '\t' || c == '\n' || c == '\r' || c == '\x0b' || c == '\x0c'

/-- Python `str.strip()`: drop leading and trailing whitespace. -/
def pyStrip (s : List Char) : List Char :=
  ((s.dropWhile pyIsSpace).reverse.dropWhile pyIsSpace).reverse

/-- Helper for `pySplitWs`: accumulates the current word (reversed). -/
def splitWsAux : List Char → List Char → List (List Char)
  | [], acc => if acc.isEmpty then [] else [acc.reverse]
  | c :: cs, acc =>
    if pyIsSpace c then
      if acc.isEmpty then splitWsAux cs [] else acc.reverse :: splitWsAux cs []
    else
      splitWsAux cs (c :: acc)

/-- Python `str.split()` with no argument: split on runs of whitespace,
discarding empty fields. -/
def pySplitWs (s : List Char) : List (List Char) := splitWsAux s []

/-- Embedding of `OCRService._is_poor_result`
(src/services/ocr_service.py lines 186-201).  Python's float comparison
`single_chars / len(words) > 0.5` is rendered as the exact integer
comparison `2 * single_chars > len(words)`, which agrees with the float
computation for every word count below 2^52. -/
def is_poor_result (text : List Char) : Bool :=
  if text.isEmpty || (pyStrip text).length < 10 then true
  else
    let words := pySplitWs text
    if words.isEmpty then true
    else
      let single_chars := (words.filter (fun w => w.length == 1)).length
      if 2 * single_chars > words.length then true
      else false

/-- Record of the metadata dictionary built by
`parse_textbook_metadata` (src/services/document_processor.py lines
39-45). -/
structure BookMetadata where
  book_type : String
  subject : String
  publisher : String
  grade : String
  full_name : String
deriving DecidableEq, Repr

/-- Helper for `pySplitOn`: accumulates the current field (reversed). -/
def splitOnCharAux (sep : Char) : List Char → List Char → List (List Char)
  | [], acc => [acc.reverse]
  | c :: cs, acc =>
    if c == sep then acc.reverse :: splitOnCharAux sep cs []
    else splitOnCharAux sep cs (c :: acc)

/-- Python `str.split(sep)` for a one-character separator: empty
fields are kept and the result always has at least one element. -/
def pySplitOn (sep : Char) (s : List Char) : List (List Char) :=
  splitOnCharAux sep s []

/-- Fields of the extension-stripped stem:
`filename.split('.')[0].split('_')` (document_processor.py lines
49-50). -/
def stemParts (filename : String) : List (List Char) :=
  pySplitOn '_' ((pySplitOn '.' filename.toList).headD [])

/-- Python `dict.get(code, code)`: look a code up in an association
list, returning the code itself when absent. -/
def lookupOr (m : List (String × String)) (code : String) : String :=
  match m.find? (fun p => p.1 == code) with
  | some p => p.2
  | none => code

/-- Literal `book_type_map` (document_processor.py lines 59-63). -/
def book_type_map : List (String × String) :=
  [("SGK", "Sách giáo khoa"), ("SBT", "Sách bài tập"), ("STK", "Sách tham khảo")]

/-- Literal `subject_map` (document_processor.py lines 67-78). -/
def subject_map : List (String × String) :=
  [("TIN", "Tin học"), ("TOAN", "Toán"), ("VAN", "Ngữ văn"), ("ANH", "Tiếng Anh"),
   ("LY", "Vật lý"), ("HOA", "Hóa học"), ("SINH", "Sinh học"), ("SU", "Lịch sử"),
   ("DIA", "Địa lý"), ("GDCD", "Giáo dục công dân")]

/-- Literal `publisher_map` (document_processor.py lines 82-88). -/
def publisher_map : List (String × String) :=
  [("CD", "Cánh Diều"), ("KN", "Kết Nối Tri Thức"), ("CT", "Chân Trời Sáng Tạo"),
   ("CK", "Cánh Diền"), ("NXB", "Nhà xuất bản")]

/-- Embedding of `DocumentProcessor.parse_textbook_metadata`
(document_processor.py lines 33-103).  Every operation in the `try`
body (string splits, dict lookups, f-strings) is total, so the
`except` handler — which would set `full_name` to the raw filename —
is unreachable and the function is the `try` body alone.  When the
stem has fewer than four underscore-delimited fields the `if` body is
skipped and the initial all-empty dictionary is returned unchanged. -/
def parse_textbook_metadata (filename : String) : BookMetadata :=
  let parts := stemParts filename
  if parts.length ≥ 4 then
    let book_type := lookupOr book_type_map (String.mk (parts.getD 0 []))
    let subject := lookupOr subject_map (String.mk (parts.getD 1 []))
    let publisher := lookupOr publisher_map (String.mk (parts.getD 2 []))
    let grade := "Lớp " ++ String.mk (parts.getD 3 [])
    { book_type := book_type, subject := subject, publisher := publisher,
      grade := grade,
      full_name := book_type ++ " " ++ subject ++ " " ++ publisher ++ " " ++ grade }
  else
    { book_type := "", subject := "", publisher := "", grade := "", full_name := "" }

/-- Abstract raster image.  Image decoding (PIL), OpenCV preprocessing
and Tesseract recognition are external, so pixel content is irrelevant
to the verified logic and an image is a token. -/
structure Img where
  id : Nat
deriving DecidableEq, Repr

/-- Environment of external operations `OCRService` calls, each of
which may throw (`Except Unit`): `load` is the body of `_load_image`
(PIL decode + color conversion), `recognize img lang` is
`pytesseract.image_to_string`, and `enhanceStep` is the OpenCV body of
`_enhance_for_ocr`. -/
structure OcrEnv where
  load : Except Unit Img
  recognize : Img → String → Except Unit (List Char)
  enhanceStep : Img → Except Unit Img

/-- Embedding of `OCRService._ocr_image` (ocr_service.py lines
98-124): run recognition, strip the result; its `except` handler
absorbs a failure as `""`. -/
def ocr_image (env : OcrEnv) (img : Img) (lang : String) : List Char :=
  match env.recognize img lang with
  | Except.ok t => pyStrip t
  | Except.error _ => []

/-- Embedding of `OCRService._enhance_for_ocr` (ocr_service.py lines
150-184): its `except` handler falls back to the original image. -/
def enhance_for_ocr (env : OcrEnv) (img : Img) : Img :=
  match env.enhanceStep img with
  | Except.ok i => i
  | Except.error _ => img

/-- Language-hint mapping of `extract_text` (ocr_service.py lines
66-72). -/
def lang_config (language : String) : String :=
  if language == "vi" then "vie"
  else if language == "en" || language == "code" then "eng"
  else "eng+vie"

/-- Embedding of `OCRService.extract_text` (ocr_service.py lines
45-92): first pass on the raw raster; if the result is poor and
enhancement is enabled, a second pass on the enhanced raster, keeping
whichever output is longer; the outer `except` handler turns any
propagated failure (only `_load_image` can propagate one) into `""`. -/
def extract_text (env : OcrEnv) (enhance : Bool) (language : String) : List Char :=
  match env.load with
  | Except.error _ => []
  | Except.ok img =>
    let lc := lang_config language
    let text := ocr_image env img lc
    if enhance && is_poor_result text then
      let text_enhanced := ocr_image env (enhance_for_ocr env img) lc
      if text_enhanced.length > text.length then text_enhanced else text
    else text

/-- Join a list of strings with a separator, as Python
`sep.join(parts)`. -/
def joinSep (sep : List Char) : List (List Char) → List Char
  | [] => []
  | [t] => t
  | t :: ts => t ++ sep ++ joinSep sep ts

/-- Embedding of `DocumentProcessor._clean_ocr_text`
(document_processor.py lines 196-205): strip each line, drop blank
lines, rejoin with `\n`. -/
def clean_ocr_text (text : List Char) : List Char :=
  joinSep ['\n'] (((pySplitOn '\n' text).map pyStrip).filter (fun l => !l.isEmpty))

/-- Embedding of `DocumentProcessor.extract_from_image`
(document_processor.py lines 174-194): OCR with enhancement enabled
and automatic language detection, then clean-up.  Nothing in its `try`
body raises in the model, so the re-raising handler is unreachable. -/
def extract_from_image (env : OcrEnv) : List Char :=
  clean_ocr_text (extract_text env true "auto")

/-- Environment in which every external operation fails. -/
def noEnv : OcrEnv :=
  ⟨Except.error (), fun _ _ => Except.error (), fun _ => Except.error ()⟩

/-- Environment in which loading and enhancement succeed and every
recognition pass returns `t`. -/
def okEnv (t : List Char) : OcrEnv :=
  ⟨Except.ok ⟨0⟩, fun _ _ => Except.ok t, fun i => Except.ok i⟩

/-- One PDF page as seen by the extraction loop of
`extract_from_pdf_with_pages`: `native` is `page.get_text()` and `env`
is the OCR environment for the page's pixmap rendered with
`fitz.Matrix(2, 2)` (2x zoom). -/
structure PageInput where
  native : List Char
  env : OcrEnv

/-- One entry of the `page_info` list (document_processor.py lines
147-153).  Offsets are integers so they live in the same coordinate
space as chunk offsets. -/
structure PageRec where
  page_number : Nat
  text : List Char
  char_start : Int
  char_end : Int
  ocr_used : Bool
deriving DecidableEq, Repr

/-- Two-character `"\n\n"` page separator. -/
def nlnl : List Char := ['\n', '\n']

/-- Embedding of `sum(len(t) + 2 for t in full_text[:-1])`
(document_processor.py lines 150-151): `full_text[:-1]` right after
appending the current page's text is exactly the accumulated list of
previous pages' texts. -/
def prevOffset (full_text : List (List Char)) : Nat :=
  (full_text.map (fun t => t.length + 2)).sum

/-- Per-page loop of `extract_from_pdf_with_pages`
(document_processor.py lines 122-153): extract the native text, fall
back to OCR of the 2x pixmap when its trimmed length is below 50, and
record page number, text, offsets and the `ocr_used` flag. -/
def pdfLoop : List PageInput → List (List Char) → Nat → List (List Char) × List PageRec
  | [], full_text, _ => (full_text, [])
  | p :: ps, full_text, page_num =>
    let text := p.native
    let page_text :=
      if (pyStrip text).length < 50 then extract_from_image p.env else text
    let cs := prevOffset full_text
    let r : PageRec :=
      { page_number := page_num + 1, text := page_text,
        char_start := (cs : Int), char_end := (cs : Int) + page_text.length,
        ocr_used := decide ((pyStrip text).length < 50) }
    let rest := pdfLoop ps (full_text ++ [page_text]) (page_num + 1)
    (rest.1, r :: rest.2)

/-- Embedding of `DocumentProcessor.extract_from_pdf_with_pages`
(document_processor.py lines 105-164): returns
`("\n\n".join(full_text), page_info)`. -/
def extract_from_pdf_with_pages (pages : List PageInput) : List Char × List PageRec :=
  let r := pdfLoop pages [] 0
  (joinSep nlnl r.1, r.2)

/-- Placeholder record for out-of-bounds `getD` access. -/
def noRec : PageRec := ⟨0, [], 0, 0, false⟩

/-- Placeholder page for out-of-bounds `getD` access. -/
def noPage : PageInput := ⟨[], noEnv⟩

/-- Demo three-page PDF: pages 1 and 3 have a rich native text layer,
page 2's native text is 5 characters (below the 50-character
threshold) and its OCR environment recognizes a fixed sentence. -/
def demoPdf : List PageInput :=
  [⟨List.replicate 60 'a', okEnv []⟩,
   ⟨"short".toList, okEnv "the OCR engine recovered this sentence from page two".toList⟩,
   ⟨List.replicate 55 'b', okEnv []⟩]

/-- Python `str.find(needle, start)` over the search positions
`0..len(hay)` with a non-negative start: the least position at or
after `start` at which `needle` occurs. -/
def pyFindNat (hay needle : List Char) (start : Nat) : Option Nat :=
  (List.range (hay.length + 1)).find?
    (fun i => decide (start ≤ i) && needle.isPrefixOf (hay.drop i))

/-- Python normalization of a (possibly negative) start index. -/
def pyStart (len : Nat) (start : Int) : Nat :=
  if start < 0 then ((len : Int) + start).toNat else start.toNat

/-- Python `str.find(needle, start)`: `-1` when the needle does not
occur at or after `start`. -/
def pyFind (hay needle : List Char) (start : Int) : Int :=
  match pyFindNat hay needle (pyStart hay.length start) with
  | some i => (i : Int)
  | none => -1

/-- Python slice-endpoint normalization: negative indices count from
the end, then both are clamped to `[0, len]`. -/
def pySliceIdx (len : Nat) (i : Int) : Nat :=
  if i < 0 then ((len : Int) + i).toNat else min i.toNat len

/-- Python `s[a:b]`. -/
def pySlice (s : List Char) (a b : Int) : List Char :=
  (s.take (pySliceIdx s.length b)).drop (pySliceIdx s.length a)

/-- One element of the list returned by `chunk_text_with_pages`
(document_processor.py lines 258-263). -/
structure ChunkRec where
  text : List Char
  pages : List Nat
  char_start : Int
  char_end : Int
deriving DecidableEq, Repr

/-- Insert into an ascending sorted list. -/
def insSorted (n : Nat) : List Nat → List Nat
  | [] => [n]
  | m :: ms => if n ≤ m then n :: m :: ms else m :: insSorted n ms

/-- Python `sorted(list(set(l)))` for a list of page numbers: the
distinct elements in ascending order. -/
def sortedDedup (l : List Nat) : List Nat :=
  l.dedup.foldr insSorted []

/-- Embedding of `DocumentProcessor._find_chunk_pages`
(document_processor.py lines 207-216): every page whose half-open
interval overlaps the chunk's, deduplicated and sorted. -/
def find_chunk_pages (chunk_start chunk_end : Int) (page_info : List PageRec) :
    List Nat :=
  sortedDedup ((page_info.filter
    (fun p => decide (chunk_start < p.char_end ∧ chunk_end > p.char_start))).map
    (fun p => p.page_number))

/-- Positioning loop of `chunk_text_with_pages` (document_processor.py
lines 244-266): fragments with trimmed length ≤ 20 are skipped,
advancing the scan position past their occurrence; surviving chunks
are located by `text.find(chunk, current_pos)` and the scan resumes at
their end. -/
def chunkLoop (text : List Char) (page_info : List PageRec) :
    List (List Char) → Int → List ChunkRec
  | [], _ => []
  | chunk :: rest, current_pos =>
    if (pyStrip chunk).length ≤ 20 then
      chunkLoop text page_info rest (pyFind text chunk current_pos + chunk.length)
    else
      let chunk_start := pyFind text chunk current_pos
      let chunk_end := chunk_start + chunk.length
      { text := chunk, pages := find_chunk_pages chunk_start chunk_end page_info,
        char_start := chunk_start, char_end := chunk_end } ::
        chunkLoop text page_info rest chunk_end

/-- Embedding of `DocumentProcessor.chunk_text_with_pages`
(document_processor.py lines 218-271), given the splitter's chunk
list: the langchain `RecursiveCharacterTextSplitter` is an external
library, so its output — the ordered list of chunk strings — is an
input of the model, and everything this repository does with that list
is translated exactly. -/
def chunk_text_with_pages (text : List Char) (chunks : List (List Char))
    (page_info : List PageRec) : List ChunkRec :=
  chunkLoop text page_info chunks 0

/-- Embedding of `DocumentProcessor.chunk_text` (document_processor.py
lines 273-302), given the splitter's chunk list: drop chunks of
trimmed length ≤ 20. -/
def chunk_text (chunks : List (List Char)) : List (List Char) :=
  chunks.filter (fun c => decide (20 < (pyStrip c).length))

/-- Demo document for the chunk-span counterexample: 36
pairwise-distinct characters none of which is a splitter separator, so
the splitter at `chunk_size=30`, `chunk_overlap=20` falls through to
the character-level separator and emits `text[0:30]` and
`text[10:36]` — consecutive chunks overlapping by 20 characters. -/
def demoText : List Char := "abcdefghijklmnopqrstuvwxyz0123456789".toList

/-- Chunk list the splitter produces for `demoText` at size 30 /
overlap 20. -/
def demoChunks : List (List Char) := [demoText.take 30, demoText.drop 10]

/-- Single-chunk demo input for which the scan succeeds. -/
def wText : List Char := "the quick brown fox jumps over the lazy dog".toList

/-- Python `min` over a non-empty list (0 for the guarded-away empty
list). -/
def listMin : List Nat → Nat
  | [] => 0
  | x :: xs => xs.foldl Nat.min x

/-- Python `max` over a non-empty list (0 for the guarded-away empty
list). -/
def listMax : List Nat → Nat
  | [] => 0
  | x :: xs => xs.foldl Nat.max x

/-- Embedding of the `page_range` expression of
`EmbeddingService.process_textbook_document`
(src/services/embedding_service.py line 114):
`f"{min(pages)}-{max(pages)}" if len(pages) > 1 else
 f"Trang {pages[0]}" if pages else ""`. -/
def page_range_label (pages : List Nat) : String :=
  if pages.length > 1 then toString (listMin pages) ++ "-" ++ toString (listMax pages)
  else if !pages.isEmpty then "Trang " ++ toString (pages.getD 0 0)
  else ""

/-!
Helper lemmas about the whitespace splitter.
-/

theorem splitWsAux_ne_nil (cs : List Char) (acc : List Char) (hacc : ¬ acc.isEmpty) :
    splitWsAux cs acc ≠ [] := by
  induction cs generalizing acc with
  | nil => simp [splitWsAux, hacc]
  | cons c cs ih =>
    simp only [splitWsAux]
    by_cases hc : pyIsSpace c
    · simp [hc, hacc]
    · simp only [hc, if_neg, Bool.false_eq_true]
      exact ih (c :: acc) (by simp [List.isEmpty])

theorem splitWs_eq_nil_all_space (s : List Char) (h : pySplitWs s = []) :
    ∀ c ∈ s, pyIsSpace c = true := by
  induction s with
  | nil => intro c hc; cases hc
  | cons c cs ih =>
    intro d hd
    unfold pySplitWs splitWsAux at h
    by_cases hc : pyIsSpace c
    · simp only [hc, if_pos, List.isEmpty_nil, if_true] at h
      rcases List.mem_cons.mp hd with rfl | hd
      · exact hc
      · exact ih h d hd
    · exfalso
      simp only [hc, Bool.false_eq_true, if_false, List.isEmpty_nil] at h
      exact splitWsAux_ne_nil cs [c] (by simp [List.isEmpty]) h

theorem strip_eq_nil_of_all_space (s : List Char) (h : ∀ c ∈ s, pyIsSpace c = true) :
    pyStrip s = [] := by
  unfold pyStrip
  have h1 : s.dropWhile pyIsSpace = [] := List.dropWhile_eq_nil_iff.mpr h
  simp [h1]

theorem splitWs_ne_nil_of_strip (s : List Char) (h : pyStrip s ≠ []) :
    pySplitWs s ≠ [] := by
  intro hcon
  exact h (strip_eq_nil_of_all_space s (splitWs_eq_nil_all_space s hcon))

/-- Claim C7: the OCR quality gate classifies a result as poor if and
only if its trimmed length is below 10 characters or more than half of
its whitespace-separated tokens are single characters; in particular
`"a b c d e f"` is poor and `"hello world this is fine"` is not. -/
theorem ocr_quality_gate_iff :
    (∀ t : List Char,
      is_poor_result t = true ↔
        ((pyStrip t).length < 10 ∨
          (pySplitWs t).length <
            2 * ((pySplitWs t).filter (fun w => w.length == 1)).length)) ∧
    is_poor_result "a b c d e f".toList = true ∧
    is_poor_result "hello world this is fine".toList = false := by
  refine ⟨fun t => ?_, by decide, by decide⟩
  unfold is_poor_result
  by_cases hshort : (pyStrip t).length < 10
  · by_cases hemp : t.isEmpty <;> simp [hemp, hshort]
  · have hne : ¬ t.isEmpty := by
      intro hcon
      have : t = [] := by simpa [List.isEmpty_iff] using hcon
      subst this
      exact hshort (by simp [pyStrip, List.dropWhile])
    have hwords : ¬ (pySplitWs t).isEmpty := by
      intro hcon
      have hnil : pySplitWs t = [] := by simpa [List.isEmpty_iff] using hcon
      have : pyStrip t ≠ [] := by
        intro hs
        exact hshort (by simp [hs])
      exact splitWs_ne_nil_of_strip t this hnil
    simp only [hne, hshort, hwords, Bool.false_eq_true, if_false, Bool.or_self]
    by_cases hr : 2 * ((pySplitWs t).filter (fun w => w.length == 1)).length >
        (pySplitWs t).length
    · simp [hr]
    · simp [hr]

/-- Claim C10: the poor-result classifier is total and safe: a
whitespace-only (in particular empty) input is classified poor by the
short-length check, an input whose token list is empty is classified
poor by the empty-token guard, and whenever the classifier reaches the
single-character-ratio computation (i.e. returns `false`), the token
list is non-empty, so the ratio's denominator is never zero. -/
theorem ocr_quality_gate_total :
    ∀ t : List Char,
      ((pyStrip t).length < 10 → is_poor_result t = true) ∧
      (pySplitWs t = [] → is_poor_result t = true) ∧
      (is_poor_result t = false → pySplitWs t ≠ []) := by
  intro t
  refine ⟨fun h => ?_, fun h => ?_, fun h => ?_⟩
  · by_cases hemp : t.isEmpty <;> simp [is_poor_result, hemp, h]
  · have hstrip : pyStrip t = [] :=
      strip_eq_nil_of_all_space t (splitWs_eq_nil_all_space t h)
    by_cases hemp : t.isEmpty <;>
      simp [is_poor_result, hemp, hstrip]
  · intro hnil
    have : is_poor_result t = true := by
      have hstrip : pyStrip t = [] :=
        strip_eq_nil_of_all_space t (splitWs_eq_nil_all_space t hnil)
      by_cases hemp : t.isEmpty <;>
        simp [is_poor_result, hemp, hstrip]
    rw [this] at h
    cases h

/-- Witness for `ocr_quality_gate_total` at the whitespace-only input
`"   "` and at a non-poor input. -/
theorem ocr_quality_gate_total_witness :
    is_poor_result "   ".toList = true ∧
    pySplitWs "hello world this is fine".toList ≠ [] :=
  ⟨(ocr_quality_gate_total "   ".toList).1 (by decide),
   (ocr_quality_gate_total "hello world this is fine".toList).2.2 (by decide)⟩

/-- Counterexample for claim C2: the claim says a filename with fewer
than four underscore-delimited fields yields `full_name` equal to the
raw filename; on `"random.pdf"` the code returns `full_name = ""`
(the `full_name = filename` assignment sits in an exception handler no
operation of the `try` body can reach). -/
theorem parse_metadata_short_counterexample :
    (parse_textbook_metadata "random.pdf").full_name = "" ∧
    (parse_textbook_metadata "random.pdf").full_name ≠ "random.pdf" := by
  constructor <;> decide

/-- Claim C2 as amended: for every filename whose extension-stripped
stem has fewer than four underscore-delimited fields,
`parse_textbook_metadata` returns a `BookMetadata` whose `book_type`,
`subject`, `publisher`, `grade` and also `full_name` are all empty,
without raising; in particular `"random.pdf"` yields
`full_name = ""`. -/
theorem parse_metadata_short_fields_empty :
    ∀ filename : String,
      (stemParts filename).length < 4 →
      parse_textbook_metadata filename =
        { book_type := "", subject := "", publisher := "", grade := "",
          full_name := "" } := by
  intro filename h
  unfold parse_textbook_metadata
  simp only [ge_iff_le]
  rw [if_neg (by omega)]

/-- Witness for `parse_metadata_short_fields_empty` at
`"random.pdf"`. -/
theorem parse_metadata_short_fields_empty_witness :
    (stemParts "random.pdf").length < 4 ∧
    parse_textbook_metadata "random.pdf" =
      { book_type := "", subject := "", publisher := "", grade := "",
        full_name := "" } :=
  ⟨by decide, parse_metadata_short_fields_empty "random.pdf" (by decide)⟩

/-- Claim C5: for every filename whose stem has at least four
underscore-delimited fields, the book-type, subject and publisher
codes are resolved through their fixed lookup tables with unknown
codes passing through unchanged, the grade label is `"Lớp " ++ code`,
and `full_name` is the space-joined concatenation of the four resolved
labels; in particular `"SGK_TIN_CD_3.pdf"` resolves fully. -/
theorem parse_metadata_resolution :
    (∀ filename : String,
      4 ≤ (stemParts filename).length →
      parse_textbook_metadata filename =
        { book_type := lookupOr book_type_map (String.mk ((stemParts filename).getD 0 [])),
          subject := lookupOr subject_map (String.mk ((stemParts filename).getD 1 [])),
          publisher := lookupOr publisher_map (String.mk ((stemParts filename).getD 2 [])),
          grade := "Lớp " ++ String.mk ((stemParts filename).getD 3 []),
          full_name :=
            lookupOr book_type_map (String.mk ((stemParts filename).getD 0 [])) ++ " " ++
            lookupOr subject_map (String.mk ((stemParts filename).getD 1 [])) ++ " " ++
            lookupOr publisher_map (String.mk ((stemParts filename).getD 2 [])) ++ " " ++
            ("Lớp " ++ String.mk ((stemParts filename).getD 3 [])) }) ∧
    (∀ (m : List (String × String)) (code : String),
      (∀ p ∈ m, p.1 ≠ code) → lookupOr m code = code) ∧
    parse_textbook_metadata "SGK_TIN_CD_3.pdf" =
      { book_type := "Sách giáo khoa", subject := "Tin học",
        publisher := "Cánh Diều", grade := "Lớp 3",
        full_name := "Sách giáo khoa Tin học Cánh Diều Lớp 3" } := by
  refine ⟨fun filename h => ?_, fun m code h => ?_, by decide⟩
  · unfold parse_textbook_metadata
    rw [if_pos h]
  · unfold lookupOr
    have : m.find? (fun p => p.1 == code) = none := by
      apply List.find?_eq_none.mpr
      intro p hp
      simpa using h p hp
    rw [this]

/-- Witness for `parse_metadata_resolution`: the general field
characterisation applied at `"SGK_TIN_CD_3.pdf"`, and pass-through of
the unknown code `"ZZZ"` through the subject table. -/
theorem parse_metadata_resolution_witness :
    parse_textbook_metadata "SGK_TIN_CD_3.pdf" =
      { book_type :=
          lookupOr book_type_map (String.mk ((stemParts "SGK_TIN_CD_3.pdf").getD 0 [])),
        subject :=
          lookupOr subject_map (String.mk ((stemParts "SGK_TIN_CD_3.pdf").getD 1 [])),
        publisher :=
          lookupOr publisher_map (String.mk ((stemParts "SGK_TIN_CD_3.pdf").getD 2 [])),
        grade :=
          "Lớp " ++ String.mk ((stemParts "SGK_TIN_CD_3.pdf").getD 3 []),
        full_name :=
          lookupOr book_type_map (String.mk ((stemParts "SGK_TIN_CD_3.pdf").getD 0 [])) ++
            " " ++
          lookupOr subject_map (String.mk ((stemParts "SGK_TIN_CD_3.pdf").getD 1 [])) ++
            " " ++
          lookupOr publisher_map (String.mk ((stemParts "SGK_TIN_CD_3.pdf").getD 2 [])) ++
            " " ++
          ("Lớp " ++ String.mk ((stemParts "SGK_TIN_CD_3.pdf").getD 3 [])) } ∧
    lookupOr subject_map "ZZZ" = "ZZZ" :=
  ⟨parse_metadata_resolution.1 "SGK_TIN_CD_3.pdf" (by decide),
   parse_metadata_resolution.2.1 subject_map "ZZZ" (by decide)⟩

/-- Claim C9: OCR extraction never propagates a failure:
`extract_text` is a total function into plain strings (the embedding
of the catch-all handlers), a failing recognition call is absorbed by
`_ocr_image` as the empty string, a failing image load makes the whole
extraction return the empty string, and when every recognition pass
fails the result is the empty string — one failed image degrades to
`""` rather than failing the document. -/
theorem ocr_extract_never_raises :
    ∀ (env : OcrEnv) (enh : Bool) (language : String),
      (env.load = Except.error () → extract_text env enh language = []) ∧
      (∀ img lang, env.recognize img lang = Except.error () →
        ocr_image env img lang = []) ∧
      ((∀ img lang, env.recognize img lang = Except.error ()) →
        extract_text env enh language = []) := by
  intro env enh language
  refine ⟨fun h => ?_, fun img lang h => ?_, fun h => ?_⟩
  · simp [extract_text, h]
  · simp [ocr_image, h]
  · unfold extract_text
    cases hload : env.load with
    | error e => rfl
    | ok img =>
      simp only [ocr_image, h, enhance_for_ocr]
      cases henh : env.enhanceStep img <;> simp

/-- Witness for `ocr_extract_never_raises`: with every external
operation failing, extraction returns the empty string. -/
theorem ocr_extract_never_raises_witness :
    extract_text noEnv true "auto" = [] ∧
    ocr_image noEnv ⟨0⟩ "eng+vie" = [] :=
  ⟨(ocr_extract_never_raises noEnv true "auto").1 rfl,
   (ocr_extract_never_raises noEnv true "auto").2.1 ⟨0⟩ "eng+vie" rfl⟩

/-!
Helper lemmas about the PDF extraction loop.
-/

theorem pdfLoop_length (ps : List PageInput) (acc : List (List Char)) (n : Nat) :
    (pdfLoop ps acc n).2.length = ps.length := by
  induction ps generalizing acc n with
  | nil => rfl
  | cons p ps ih => simp [pdfLoop, ih]

theorem pdfLoop_span (ps : List PageInput) (acc : List (List Char)) (n : Nat) :
    ∀ r ∈ (pdfLoop ps acc n).2, r.char_end - r.char_start = (r.text.length : Int) := by
  induction ps generalizing acc n with
  | nil => intro r hr; cases hr
  | cons p ps ih =>
    intro r hr
    rcases List.mem_cons.mp hr with rfl | hr
    · simp
    · exact ih _ _ r hr

theorem pdfLoop_head_start (ps : List PageInput) (acc : List (List Char)) (n : Nat)
    (h : ps ≠ []) :
    ((pdfLoop ps acc n).2.getD 0 noRec).char_start = (prevOffset acc : Int) := by
  cases ps with
  | nil => exact absurd rfl h
  | cons p ps => simp [pdfLoop]

theorem pdfLoop_adjacent (ps : List PageInput) (acc : List (List Char)) (n : Nat) :
    ∀ i, i + 1 < (pdfLoop ps acc n).2.length →
      ((pdfLoop ps acc n).2.getD i noRec).char_end =
        ((pdfLoop ps acc n).2.getD (i + 1) noRec).char_start - 2 := by
  induction ps generalizing acc n with
  | nil => intro i hi; simp [pdfLoop] at hi
  | cons p ps ih =>
    intro i hi
    rw [pdfLoop_length] at hi
    simp only [List.length_cons] at hi
    cases i with
    | zero =>
      have hps : ps ≠ [] := by
        intro hcon; subst hcon; simp at hi
      have hhead := pdfLoop_head_start ps
        (acc ++ [if (pyStrip p.native).length < 50 then extract_from_image p.env
                 else p.native]) (n + 1) hps
      simp only [pdfLoop, List.getD_cons_zero, List.getD_cons_succ]
      rw [hhead]
      simp [prevOffset]
      ring
    | succ j =>
      simp only [pdfLoop, List.getD_cons_succ]
      exact ih _ _ j (by rw [pdfLoop_length]; omega)

theorem pdfLoop_full_text (ps : List PageInput) (acc : List (List Char)) (n : Nat) :
    (pdfLoop ps acc n).1 = acc ++ (pdfLoop ps acc n).2.map (fun r => r.text) := by
  induction ps generalizing acc n with
  | nil => simp [pdfLoop]
  | cons p ps ih =>
    simp only [pdfLoop, List.map_cons]
    rw [ih]
    simp

/-- Claim C3: for every PDF, the PageRecord list satisfies
`char_end - char_start = len(text)` for every record, consecutive
records satisfy `page[i].char_end = page[i+1].char_start - 2` (the
two-character `\n\n` separator), and the records' texts joined with
the separator equal the returned full text exactly. -/
theorem pdf_page_record_invariants :
    ∀ pages : List PageInput,
      (∀ r ∈ (extract_from_pdf_with_pages pages).2,
        r.char_end - r.char_start = (r.text.length : Int)) ∧
      (∀ i, i + 1 < (extract_from_pdf_with_pages pages).2.length →
        (((extract_from_pdf_with_pages pages).2.getD i noRec).char_end =
          ((extract_from_pdf_with_pages pages).2.getD (i + 1) noRec).char_start - 2)) ∧
      joinSep nlnl ((extract_from_pdf_with_pages pages).2.map (fun r => r.text)) =
        (extract_from_pdf_with_pages pages).1 := by
  intro pages
  refine ⟨pdfLoop_span pages [] 0, pdfLoop_adjacent pages [] 0, ?_⟩
  show joinSep nlnl ((pdfLoop pages [] 0).2.map (fun r => r.text)) =
    joinSep nlnl (pdfLoop pages [] 0).1
  rw [pdfLoop_full_text pages [] 0]
  simp

/-- Witness for `pdf_page_record_invariants` at the concrete
three-page input. -/
theorem pdf_page_record_invariants_witness :
    (1 + 1 < (extract_from_pdf_with_pages demoPdf).2.length) ∧
    ((extract_from_pdf_with_pages demoPdf).2.getD 1 noRec).char_end =
      ((extract_from_pdf_with_pages demoPdf).2.getD 2 noRec).char_start - 2 :=
  ⟨by decide, (pdf_page_record_invariants demoPdf).2.1 1 (by decide)⟩

/-- Claim C6: for every page, OCR is used exactly when the native
text's trimmed length is below 50: the record's `ocr_used` flag equals
that test, its text is the OCR result (of the 2x-zoom raster, with
language hint `"auto"`) when used and the native text otherwise; in
the concrete three-page PDF where only page 2 is sparse, the flags are
`[false, true, false]`. -/
theorem pdf_ocr_fallback :
    (∀ (pages : List PageInput) (i : Nat), i < pages.length →
      ((extract_from_pdf_with_pages pages).2.getD i noRec).ocr_used =
        decide ((pyStrip (pages.getD i noPage).native).length < 50) ∧
      ((extract_from_pdf_with_pages pages).2.getD i noRec).text =
        (if (pyStrip (pages.getD i noPage).native).length < 50 then
          extract_from_image (pages.getD i noPage).env
        else (pages.getD i noPage).native)) ∧
    (extract_from_pdf_with_pages demoPdf).2.map (fun r => r.ocr_used) =
      [false, true, false] := by
  constructor
  · have loop : ∀ (ps : List PageInput) (acc : List (List Char)) (n i : Nat),
        i < ps.length →
        (((pdfLoop ps acc n).2.getD i noRec).ocr_used =
          decide ((pyStrip (ps.getD i noPage).native).length < 50) ∧
        ((pdfLoop ps acc n).2.getD i noRec).text =
          (if (pyStrip (ps.getD i noPage).native).length < 50 then
            extract_from_image (ps.getD i noPage).env
          else (ps.getD i noPage).native)) := by
      intro ps
      induction ps with
      | nil => intro acc n i hi; cases hi
      | cons p ps ih =>
        intro acc n i hi
        cases i with
        | zero => simp [pdfLoop]
        | succ j =>
          simp only [pdfLoop, List.getD_cons_succ]
          exact ih _ _ j (by simpa using Nat.lt_of_succ_lt_succ hi)
    intro pages i hi
    exact loop pages [] 0 i hi
  · decide

/-- Witness for `pdf_ocr_fallback` at page 2 (index 1) of the
three-page demo PDF. -/
theorem pdf_ocr_fallback_witness :
    (1 < demoPdf.length) ∧
    ((extract_from_pdf_with_pages demoPdf).2.getD 1 noRec).ocr_used =
      decide ((pyStrip (demoPdf.getD 1 noPage).native).length < 50) :=
  ⟨by decide, (pdf_ocr_fallback.1 demoPdf 1 (by decide)).1⟩

/-!
Helper lemmas about `pyFind`, `pySlice` and the chunk loop.
-/

theorem pyFindNat_spec (hay needle : List Char) (s i : Nat)
    (h : pyFindNat hay needle s = some i) :
    needle.isPrefixOf (hay.drop i) = true ∧ i ≤ hay.length := by
  unfold pyFindNat at h
  have h1 := List.find?_some h
  have h2 := List.mem_of_find?_eq_some h
  simp only [Bool.and_eq_true, decide_eq_true_eq] at h1
  exact ⟨h1.2, by have := List.mem_range.mp h2; omega⟩

theorem pySlice_of_found (hay needle : List Char) (i : Nat)
    (hle : i ≤ hay.length) (hpre : needle.isPrefixOf (hay.drop i) = true) :
    pySlice hay (i : Int) ((i : Int) + needle.length) = needle := by
  have hpre' : needle <+: hay.drop i := by simpa using hpre
  obtain ⟨tail, htail⟩ := hpre'
  have hlen : i + needle.length ≤ hay.length := by
    have h1 : needle.length + tail.length = (hay.drop i).length := by
      rw [← htail]; simp
    rw [List.length_drop] at h1
    omega
  have htake : (hay.drop i).take needle.length = needle := by
    rw [← htail]
    exact List.take_left needle tail
  unfold pySlice pySliceIdx
  have hab : ((i : Int) + needle.length).toNat = i + needle.length := by
    omega
  have hia : (i : Int).toNat = i := by omega
  rw [if_neg (by omega), if_neg (by omega), hab, hia,
    min_eq_left hlen, min_eq_left hle, List.drop_take]
  simpa using htake

theorem pyFind_found (hay needle : List Char) (start : Int)
    (h : 0 ≤ pyFind hay needle start) :
    pySlice hay (pyFind hay needle start)
      (pyFind hay needle start + needle.length) = needle := by
  unfold pyFind at h ⊢
  cases hfind : pyFindNat hay needle (pyStart hay.length start) with
  | none =>
    rw [hfind] at h
    simp at h
  | some i =>
    have hspec := pyFindNat_spec hay needle _ i hfind
    show pySlice hay (i : Int) ((i : Int) + needle.length) = needle
    exact pySlice_of_found hay needle i hspec.2 hspec.1

theorem chunkLoop_span_sound (text : List Char) (page_info : List PageRec) :
    ∀ (chunks : List (List Char)) (pos : Int) (r : ChunkRec),
      r ∈ chunkLoop text page_info chunks pos → 0 ≤ r.char_start →
      pySlice text r.char_start r.char_end = r.text := by
  intro chunks
  induction chunks with
  | nil => intro pos r hr; cases hr
  | cons c cs ih =>
    intro pos r hr hge
    unfold chunkLoop at hr
    by_cases hlen : (pyStrip c).length ≤ 20
    · rw [if_pos hlen] at hr
      exact ih _ r hr hge
    · rw [if_neg hlen] at hr
      rcases List.mem_cons.mp hr with rfl | hr
      · exact pyFind_found text c pos hge
      · exact ih _ r hr hge

theorem chunkLoop_min_length (text : List Char) (page_info : List PageRec) :
    ∀ (chunks : List (List Char)) (pos : Int) (r : ChunkRec),
      r ∈ chunkLoop text page_info chunks pos → 20 < (pyStrip r.text).length := by
  intro chunks
  induction chunks with
  | nil => intro pos r hr; cases hr
  | cons c cs ih =>
    intro pos r hr
    unfold chunkLoop at hr
    by_cases hlen : (pyStrip c).length ≤ 20
    · rw [if_pos hlen] at hr
      exact ih _ r hr
    · rw [if_neg hlen] at hr
      rcases List.mem_cons.mp hr with rfl | hr
      · show 20 < (pyStrip c).length
        omega
      · exact ih _ r hr

/-- Counterexample for claim C1: on the overlapping chunk pair that
the splitter produces at `chunk_size=30, chunk_overlap=20`, the second
chunk starts (position 10) before the scan position (30 — the end of
the first chunk), so `text.find(chunk, current_pos)` returns `-1` and
the recorded span `[-1, 25)` does not reproduce the chunk text: the
claimed invariant `full_text[char_start:char_end] == text` fails. -/
theorem chunk_span_counterexample :
    ((chunk_text_with_pages demoText demoChunks []).getD 1 ⟨[], [], 0, 0⟩).char_start =
      -1 ∧
    pySlice demoText
      ((chunk_text_with_pages demoText demoChunks []).getD 1 ⟨[], [], 0, 0⟩).char_start
      ((chunk_text_with_pages demoText demoChunks []).getD 1 ⟨[], [], 0, 0⟩).char_end ≠
      ((chunk_text_with_pages demoText demoChunks []).getD 1 ⟨[], [], 0, 0⟩).text := by
  constructor <;> decide

/-- Claim C1 as amended: every ChunkRecord whose forward scan
succeeded (`char_start ≥ 0`, i.e. the chunk occurs in the full text at
or after the previous match position — which holds whenever
consecutive chunks do not overlap) satisfies
`full_text[char_start:char_end] == text`; when a chunk occurs only
before the scan position (as the splitter's overlap can cause), the
scan returns `-1` and the invariant fails. -/
theorem chunk_span_located :
    ∀ (text : List Char) (chunks : List (List Char)) (page_info : List PageRec),
      ∀ r ∈ chunk_text_with_pages text chunks page_info,
        0 ≤ r.char_start →
        pySlice text r.char_start r.char_end = r.text :=
  fun text chunks page_info r hr hge =>
    chunkLoop_span_sound text page_info chunks 0 r hr hge

/-- Witness for `chunk_span_located` at the single-chunk input. -/
theorem chunk_span_located_witness :
    ((chunk_text_with_pages wText [wText] []).getD 0 ⟨[], [], 0, 0⟩ ∈
      chunk_text_with_pages wText [wText] []) ∧
    (0 ≤ ((chunk_text_with_pages wText [wText] []).getD 0 ⟨[], [], 0, 0⟩).char_start) ∧
    pySlice wText
      ((chunk_text_with_pages wText [wText] []).getD 0 ⟨[], [], 0, 0⟩).char_start
      ((chunk_text_with_pages wText [wText] []).getD 0 ⟨[], [], 0, 0⟩).char_end =
      ((chunk_text_with_pages wText [wText] []).getD 0 ⟨[], [], 0, 0⟩).text :=
  ⟨by decide, by decide,
   chunk_span_located wText [wText] [] _ (by decide) (by decide)⟩

/-- Claim C8: every chunk surviving `chunk_text` and every ChunkRecord
produced by `chunk_text_with_pages` has trimmed length strictly
greater than 20; a fragment with trimmed length ≤ 20 contributes no
record and the scan position advances past its occurrence
(`find(chunk, pos) + len(chunk)`), leaving later chunks' offsets
unshifted. -/
theorem chunk_min_length :
    ∀ (text : List Char) (chunks : List (List Char)) (page_info : List PageRec),
      (∀ c ∈ chunk_text chunks, 20 < (pyStrip c).length) ∧
      (∀ r ∈ chunk_text_with_pages text chunks page_info,
        20 < (pyStrip r.text).length) ∧
      (∀ c : List Char, (pyStrip c).length ≤ 20 → ∀ pos : Int,
        chunkLoop text page_info (c :: chunks) pos =
          chunkLoop text page_info chunks (pyFind text c pos + c.length)) := by
  intro text chunks page_info
  refine ⟨fun c hc => ?_, chunkLoop_min_length text page_info chunks 0,
    fun c hshort pos => ?_⟩
  · have := List.mem_filter.mp hc
    simpa using this.2
  · simp only [chunkLoop]
    rw [if_pos hshort]

/-- Witness for `chunk_min_length`: the surviving chunk of the
single-chunk input, and the skip equation for a short fragment. -/
theorem chunk_min_length_witness :
    (20 < (pyStrip ((chunk_text_with_pages wText [wText] []).getD 0
      ⟨[], [], 0, 0⟩).text).length) ∧
    chunkLoop wText [] ("  tiny  ".toList :: [wText]) 0 =
      chunkLoop wText [] [wText] (pyFind wText "  tiny  ".toList 0 +
        "  tiny  ".toList.length) :=
  ⟨(chunk_min_length wText [wText] []).2.1 _ (by decide),
   (chunk_min_length wText [wText] []).2.2 "  tiny  ".toList (by decide) 0⟩

/-- Counterexample for claim C4: for a single-page chunk the code
formats the label as `"Trang <n>"` (Vietnamese), not `"Page <n>"` as
claimed: at `pages = [3]` the label is `"Trang 3"`. -/
theorem page_range_label_counterexample :
    page_range_label [3] ≠ "Page 3" ∧ page_range_label [3] = "Trang 3" := by
  constructor <;> decide

/-- Claim C4 as amended: the per-chunk page-range label equals
`"<min>-<max>"` when the chunk's pages set has more than one page,
`"Trang <n>"` (not `"Page <n>"`) when it has exactly one page `n`, and
the empty string when the pages set is empty. -/
theorem page_range_label_cases :
    (∀ pages : List Nat, 1 < pages.length →
      page_range_label pages =
        toString (listMin pages) ++ "-" ++ toString (listMax pages)) ∧
    (∀ n : Nat, page_range_label [n] = "Trang " ++ toString n) ∧
    page_range_label [] = "" := by
  refine ⟨fun pages h => ?_, fun n => ?_, rfl⟩
  · unfold page_range_label
    rw [if_pos (by omega)]
  · rfl

/-- Witness for `page_range_label_cases` at a multi-page chunk and a
single-page chunk. -/
theorem page_range_label_cases_witness :
    page_range_label [2, 5] =
      toString (listMin [2, 5]) ++ "-" ++ toString (listMax [2, 5]) ∧
    page_range_label [7] = "Trang " ++ toString 7 :=
  ⟨page_range_label_cases.1 [2, 5] (by decide), page_range_label_cases.2.1 7⟩

end RagUpload
